import Mathlib

/-
Verification development for the dynamic-array container in src/vector.h
(template class Vector<T> built on RawMemory<T>).

Embedding conventions:
* A vector state is the pair of its live element prefix and its buffer
  capacity.  The C++ field size_ always equals the number of live,
  constructed elements, so it is represented by the length of the list.
* Element construction, copy construction and destruction of a type T
  whose copy constructor may throw are modelled by a copy oracle
  copyFn : alpha -> Except epsilon alpha.  Move construction is taken on
  the paths where the code selects it, i.e. where the type declares a
  non-throwing move or is not copy constructible, so a move never fails
  and transfers the value unchanged.
* The compile-time relocation policy
  std::is_nothrow_move_constructible_v<T> || !std::is_copy_constructible_v<T>
  is represented by two booleans.
* Buffer-level effects (placement construction into the new buffer,
  destructor calls during unwinding, destructor calls in catch blocks,
  destruction of the old live elements, buffer swap and release) are
  recorded as an event trace so that exception-safety claims can be
  stated about what the code does, not merely about the final value.
* Iterator arguments are represented by their signed offset from
  data_.GetAddress(); a pointer before the buffer start is a negative
  offset.
-/

set_option maxHeartbeats 1000000

namespace VecModel

/-- State of a Vector<T>: the live elements (the C++ size_ is the length
of this list) and the capacity of the owned RawMemory buffer. -/
structure Vector (α : Type) where
  elems : List α
  cap : Nat
  deriving DecidableEq

/-- Translation of Vector::Size. -/
def Size {α : Type} (v : Vector α) : Nat := v.elems.length

/-- Translation of Vector::Capacity. -/
def Capacity {α : Type} (v : Vector α) : Nat := v.cap

/-- Translation of Vector::CheckIterator: the code throws std::out_of_range
when pos < data_.GetAddress() or pos > data_ + size_; in offset form the
check passes exactly when 0 <= pos and pos <= size_. -/
def CheckIterator {α : Type} (v : Vector α) (pos : Int) : Bool :=
  decide (0 ≤ pos) && decide (pos ≤ (Size v : Int))

/-- Buffer-level events performed by a growth or reallocation path. -/
inductive Ev where
  | allocNew (cap : Nat)
  | constructNew (slot : Nat)
  | rollbackDestroy (slot : Nat)
  | catchDestroy (slot : Nat)
  | destroyOld (count : Nat)
  | swapBuffers
  | releaseNew
  deriving DecidableEq

/-- Copy oracle of a copy constructor that always succeeds and returns
the value unchanged. -/
def pureCopy {α : Type} : α → Except Unit α := fun a => Except.ok a

/-- Translation of std::uninitialized_copy_n with a fallible element copy:
copies the elements in index order; if the copy of some element throws,
the k elements already constructed in the destination are destroyed during
unwinding and the error propagates, reported here together with k. -/
def uninitializedCopyN {α ε : Type} (copyFn : α → Except ε α) :
    List α → Except (Nat × ε) (List α)
  | [] => Except.ok []
  | x :: xs =>
    match copyFn x with
    | Except.error e => Except.error (0, e)
    | Except.ok y =>
      match uninitializedCopyN copyFn xs with
      | Except.error (k, e) => Except.error (k + 1, e)
      | Except.ok ys => Except.ok (y :: ys)

/-- Placement constructions into new-buffer slots base, base+1, ...,
base+k-1, in index order. -/
def constructEvents (base k : Nat) : List Ev :=
  (List.range k).map (fun i => Ev.constructNew (base + i))

/-- Destructor calls run by a std uninitialized algorithm while unwinding
after a failed element copy: the k already-constructed destination
elements are destroyed. -/
def rollbackEvents (base k : Nat) : List Ev :=
  ((List.range k).reverse).map (fun i => Ev.rollbackDestroy (base + i))

/-- Translation of std::destroy_n(new_buffer, k) in a catch block:
destructor calls on new-buffer slots 0..k-1 in index order. -/
def catchDestroyEvents (k : Nat) : List Ev :=
  (List.range k).map (fun i => Ev.catchDestroy i)

/-- Translation of the relocation policy condition
std::is_nothrow_move_constructible_v<T> || !std::is_copy_constructible_v<T>. -/
def useMoveRelocation (nothrowMove copyCtor : Bool) : Bool :=
  nothrowMove || !copyCtor

/-- Translation of std::move_backward(l+first, l+last, l+dlast) over list
indices: the range [first, last) is copied to the range ending at dlast,
iterating from the back so that an overlapping destination reads each
source element before overwriting it. -/
def stdMoveBackward {α : Type} [Inhabited α] (l : List α) (first last dlast : Nat) :
    List α :=
  (List.range (last - first)).foldl
    (fun acc k => acc.set (dlast - 1 - k) (acc.getD (last - 1 - k) default)) l

/-- Translation of std::move(l+first, l+last, l+d) over list indices:
the range [first, last) is copied to the range starting at d, iterating
forwards. -/
def stdMoveFwd {α : Type} [Inhabited α] (l : List α) (first last d : Nat) : List α :=
  (List.range (last - first)).foldl
    (fun acc k => acc.set (d + k) (acc.getD (first + k) default)) l

/-- Observable outcome of Vector::Emplace (and Insert): the invalid
position exception from CheckIterator, success with the resulting state,
the returned offset and the buffer-event trace, or a propagated element
copy failure with the trace and the state left behind. -/
inductive EmplaceOutcome (ε α : Type) where
  | invalidPos (v : Vector α)
  | ok (v : Vector α) (ret : Nat) (tr : List Ev)
  | threw (e : ε) (tr : List Ev) (v : Vector α)
  deriving DecidableEq

/-- Translation of Vector::Emplace(pos, args...).  The new element value
is x (its construction from args is not modelled as failing; the claims
under study concern the relocation failures).  The in-place branch follows
the code: move-construct the last element into the next slot, shift
[pos, size-1) right with std::move_backward, then assign the new value at
pos; the reallocation branch allocates double capacity (1 from 0),
constructs the new element at its final slot first, relocates prefix and
suffix with the policy of Reserve, destroys the new element alone if the
prefix relocation throws, destroys slots 0..pos if the suffix relocation
throws, and only on success destroys the old live elements and swaps
buffers. -/
def Emplace {α ε : Type} [Inhabited α] (nothrowMove copyCtor : Bool)
    (copyFn : α → Except ε α) (v : Vector α) (pos : Int) (x : α) :
    EmplaceOutcome ε α :=
  if CheckIterator v pos = false then EmplaceOutcome.invalidPos v else
  let n : Nat := pos.toNat
  if Size v ≠ v.cap ∧ v.cap ≠ 0 then
    if n ≠ Size v then
      let lastVal := v.elems.getD (Size v - 1) default
      let shifted := stdMoveBackward (v.elems ++ [lastVal]) n (Size v - 1) (Size v)
      EmplaceOutcome.ok ⟨shifted.set n x, v.cap⟩ n []
    else
      EmplaceOutcome.ok ⟨v.elems ++ [x], v.cap⟩ n []
  else
    let c := if v.cap = 0 then 1 else v.cap * 2
    let pre := v.elems.take n
    let suf := v.elems.drop n
    let t0 := [Ev.allocNew c, Ev.constructNew n]
    if useMoveRelocation nothrowMove copyCtor then
      EmplaceOutcome.ok ⟨pre ++ x :: suf, c⟩ n
        (t0 ++ constructEvents 0 n ++ constructEvents (n + 1) suf.length
          ++ [Ev.destroyOld (Size v), Ev.swapBuffers])
    else
      match uninitializedCopyN copyFn pre with
      | Except.error (k, e) =>
        EmplaceOutcome.threw e
          (t0 ++ constructEvents 0 k ++ rollbackEvents 0 k
            ++ [Ev.catchDestroy n, Ev.releaseNew]) v
      | Except.ok preC =>
        match uninitializedCopyN copyFn suf with
        | Except.error (k, e) =>
          EmplaceOutcome.threw e
            (t0 ++ constructEvents 0 n ++ constructEvents (n + 1) k
              ++ rollbackEvents (n + 1) k ++ catchDestroyEvents (n + 1)
              ++ [Ev.releaseNew]) v
        | Except.ok sufC =>
          EmplaceOutcome.ok ⟨preC ++ x :: sufC, c⟩ n
            (t0 ++ constructEvents 0 n ++ constructEvents (n + 1) suf.length
              ++ [Ev.destroyOld (Size v), Ev.swapBuffers])

/-- Translation of Vector::Insert(pos, value): delegates to Emplace. -/
def Insert {α ε : Type} [Inhabited α] (nothrowMove copyCtor : Bool)
    (copyFn : α → Except ε α) (v : Vector α) (pos : Int) (x : α) :
    EmplaceOutcome ε α :=
  Emplace nothrowMove copyCtor copyFn v pos x

/-- Emplace under a never-failing copy oracle, projected to the resulting
state (the non-ok branches return the carried state and are unreachable on
the inputs where this wrapper is used). -/
def EmplaceRun {α : Type} [Inhabited α] (v : Vector α) (pos : Int) (x : α) :
    Vector α :=
  match Emplace false true pureCopy v pos x with
  | EmplaceOutcome.ok w _ _ => w
  | EmplaceOutcome.invalidPos w => w
  | EmplaceOutcome.threw _ _ w => w

/-- Insert under a never-failing copy oracle, projected to the resulting
state. -/
def InsertRun {α : Type} [Inhabited α] (v : Vector α) (pos : Int) (x : α) :
    Vector α :=
  match Insert false true pureCopy v pos x with
  | EmplaceOutcome.ok w _ _ => w
  | EmplaceOutcome.invalidPos w => w
  | EmplaceOutcome.threw _ _ w => w

/-- Translation of Vector::PushBack(value): EmplaceBack forwards to
Emplace(end(), value), and end() is data_ + size_. -/
def PushBack {α : Type} [Inhabited α] (v : Vector α) (x : α) : Vector α :=
  EmplaceRun v (Size v : Int) x

/-- Observable outcome of Vector::Erase.  When the guard passes with
pos equal to size_, the code executes std::move(data_ + pos + 1, end(),
data_ + pos) whose source range [first, last) has first past last - an
invalid range - and then calls the destructor of data_[size_ - 1], which
for an empty vector is out of bounds (for a full buffer even computing
data_ + pos + 1 violates the assert offset <= capacity_ in
RawMemory::operator+).  The model marks this branch instead of assigning
it semantics. -/
inductive EraseOutcome (α : Type) where
  | invalidPos (v : Vector α)
  | ok (v : Vector α) (ret : Nat)
  | outOfLiveRange (v : Vector α)
  deriving DecidableEq

/-- Translation of Vector::Erase(pos): CheckIterator, then shift
[pos+1, size) left by one with std::move, destroy the last slot and
decrement size. -/
def Erase {α : Type} [Inhabited α] (v : Vector α) (pos : Int) : EraseOutcome α :=
  if CheckIterator v pos = false then EraseOutcome.invalidPos v else
  let n : Nat := pos.toNat
  if n < Size v then
    EraseOutcome.ok ⟨(stdMoveFwd v.elems (n + 1) (Size v) n).take (Size v - 1), v.cap⟩ n
  else
    EraseOutcome.outOfLiveRange v

/-- Erase projected to the resulting state. -/
def EraseRun {α : Type} [Inhabited α] (v : Vector α) (pos : Int) : Vector α :=
  match Erase v pos with
  | EraseOutcome.ok w _ => w
  | EraseOutcome.invalidPos w => w
  | EraseOutcome.outOfLiveRange w => w

/-- Observable outcome of Vector::Reserve: success with the resulting
state and the buffer-event trace, or a propagated element copy failure
with the trace and the state left behind. -/
inductive ReserveOutcome (ε α : Type) where
  | ok (v : Vector α) (tr : List Ev)
  | threw (e : ε) (tr : List Ev) (v : Vector α)
  deriving DecidableEq

/-- Translation of Vector::Reserve(new_capacity): no-op when
new_capacity <= capacity; otherwise allocate a new buffer, relocate the
live elements by move or by copy according to the policy condition, swap
buffers and destroy the old elements through the swapped handle.  Under
the copy path a throwing element copy makes std::uninitialized_copy_n
destroy the destination elements already constructed, and the RawMemory
destructor of the new buffer releases it while the exception propagates. -/
def Reserve {α ε : Type} (nothrowMove copyCtor : Bool)
    (copyFn : α → Except ε α) (v : Vector α) (newCap : Nat) :
    ReserveOutcome ε α :=
  if newCap ≤ v.cap then ReserveOutcome.ok v []
  else if useMoveRelocation nothrowMove copyCtor then
    ReserveOutcome.ok ⟨v.elems, newCap⟩
      ([Ev.allocNew newCap] ++ constructEvents 0 (Size v)
        ++ [Ev.swapBuffers, Ev.destroyOld (Size v)])
  else
    match uninitializedCopyN copyFn v.elems with
    | Except.error (k, e) =>
      ReserveOutcome.threw e
        ([Ev.allocNew newCap] ++ constructEvents 0 k ++ rollbackEvents 0 k
          ++ [Ev.releaseNew]) v
    | Except.ok ys =>
      ReserveOutcome.ok ⟨ys, newCap⟩
        ([Ev.allocNew newCap] ++ constructEvents 0 (Size v)
          ++ [Ev.swapBuffers, Ev.destroyOld (Size v)])

/-- Reserve under a never-failing copy oracle, projected to the resulting
state. -/
def ReserveRun {α : Type} (v : Vector α) (newCap : Nat) : Vector α :=
  match Reserve false true pureCopy v newCap with
  | ReserveOutcome.ok w _ => w
  | ReserveOutcome.threw _ _ w => w

/-- Translation of Vector::Resize(new_size): growing reserves new_size and
value-constructs the new slots [size, new_size); shrinking destroys the
slots [new_size, size); size_ becomes new_size. -/
def Resize {α : Type} [Inhabited α] (v : Vector α) (newSize : Nat) : Vector α :=
  if newSize > Size v then
    let r := ReserveRun v newSize
    ⟨r.elems ++ List.replicate (newSize - Size v) default, r.cap⟩
  else
    ⟨v.elems.take newSize, v.cap⟩

/-- Trace projection of an Emplace outcome (the invalid-position exit
performs no buffer events). -/
def traceOf {ε α : Type} : EmplaceOutcome ε α → List Ev
  | EmplaceOutcome.invalidPos _ => []
  | EmplaceOutcome.ok _ _ tr => tr
  | EmplaceOutcome.threw _ tr _ => tr

/-- The vector state observable after a propagated exception, if any. -/
def throwState {ε α : Type} : EmplaceOutcome ε α → Option (Vector α)
  | EmplaceOutcome.threw _ _ w => some w
  | _ => none

/-- Whether an Emplace outcome is a propagated element-copy failure. -/
def isThrewOut {ε α : Type} : EmplaceOutcome ε α → Bool
  | EmplaceOutcome.threw _ _ _ => true
  | _ => false

/-- Whether an Emplace outcome is a success. -/
def isOkOut {ε α : Type} : EmplaceOutcome ε α → Bool
  | EmplaceOutcome.ok _ _ _ => true
  | _ => false

/-- Slots of the new buffer that receive a placement construction, in
order of occurrence. -/
def constructedSlots (tr : List Ev) : List Nat :=
  tr.filterMap (fun ev => match ev with
    | Ev.constructNew i => some i
    | _ => none)

/-- Slots of the new buffer on which a destructor runs (during unwinding
of a std uninitialized algorithm or in a catch block), in order of
occurrence. -/
def destroyedSlots (tr : List Ev) : List Nat :=
  tr.filterMap (fun ev => match ev with
    | Ev.rollbackDestroy i => some i
    | Ev.catchDestroy i => some i
    | _ => none)

/-- Slots destroyed explicitly by a catch block, in order of occurrence. -/
def catchSlots (tr : List Ev) : List Nat :=
  tr.filterMap (fun ev => match ev with
    | Ev.catchDestroy i => some i
    | _ => none)

/-- Whether the trace destroys old live elements or swaps buffers, the two
events that mutate the original vector. -/
def touchesOldBuffer (tr : List Ev) : Bool :=
  tr.any (fun ev => match ev with
    | Ev.destroyOld _ => true
    | Ev.swapBuffers => true
    | _ => false)

/-- Whether an element copy failed. -/
def exceptFailed {ε β : Type} : Except ε β → Bool
  | Except.error _ => true
  | Except.ok _ => false

/-- Copy oracle of a copy constructor that throws exactly on the value 2. -/
def failAt2 : Nat → Except Unit Nat :=
  fun a => if a = 2 then Except.error () else Except.ok a

/-- A sequence of PushBack calls. -/
def pushSeq {α : Type} [Inhabited α] (v : Vector α) (xs : List α) : Vector α :=
  xs.foldl PushBack v

/-- Element-level operations performed by the copy-assignment operator. -/
inductive AsgEv where
  | assign (i : Nat)
  | destruct (i : Nat)
  | constructTail (i : Nat)
  | tempCopySwap
  deriving DecidableEq

/-- Translation of the loop for (size_t i = 0; i != n; ++i) data_[i] =
rhs.data_[i]: element-wise copy assignment of the first n slots. -/
def assignLoop {α : Type} [Inhabited α] (dst src : List α) : Nat → List α
  | 0 => dst
  | n + 1 => (assignLoop dst src n).set n (src.getD n default)

/-- Translation of the body of Vector::operator=(const Vector&) past the
self-assignment guard: copy-and-swap when rhs.size_ > capacity (the
temporary copy allocates exactly rhs.size_), otherwise copy-assign the
overlapping prefix, destroy the excess tail when shrinking, and
copy-construct the extra tail into existing capacity when growing;
size_ becomes rhs.size_. -/
def CopyAssignBody {α : Type} [Inhabited α] (t rhs : Vector α) :
    Vector α × List AsgEv :=
  if Size rhs > t.cap then
    (⟨rhs.elems, Size rhs⟩, [AsgEv.tempCopySwap])
  else if Size rhs < Size t then
    (⟨(assignLoop t.elems rhs.elems (Size rhs)).take (Size rhs), t.cap⟩,
      (List.range (Size rhs)).map AsgEv.assign
        ++ (List.range' (Size rhs) (Size t - Size rhs)).map AsgEv.destruct)
  else
    (⟨assignLoop t.elems rhs.elems (Size t) ++ rhs.elems.drop (Size t), t.cap⟩,
      (List.range (Size t)).map AsgEv.assign
        ++ (List.range' (Size t) (Size rhs - Size t)).map AsgEv.constructTail)

/-- Translation of Vector::operator=(const Vector&): the guard
this != &rhs is represented by the isSelf flag (true means the two
arguments alias the same object, so rhs is the same state as t). -/
def CopyAssignOp {α : Type} [Inhabited α] (t rhs : Vector α) (isSelf : Bool) :
    Vector α × List AsgEv :=
  if isSelf then (t, []) else CopyAssignBody t rhs

/-- Translation of Vector::Vector(Vector&&): data_ is move-constructed
from other.data_, which exchanges the buffer and capacity of other with
the null and zero state, and size_ is std::exchange(other.size_, 0).
Returns the pair (constructed vector, moved-from source). -/
def MoveCtor {α : Type} (other : Vector α) : Vector α × Vector α :=
  (⟨other.elems, other.cap⟩, ⟨[], 0⟩)

/-- Translation of Vector::operator=(Vector&&): behind the this != &rhs
guard (the isSelf flag), data_ = std::move(rhs.data_) and size_ =
std::exchange(rhs.size_, 0).  Returns the pair (assigned target,
moved-from source). -/
def MoveAssignOp {α : Type} (t rhs : Vector α) (isSelf : Bool) :
    Vector α × Vector α :=
  if isSelf then (t, rhs) else (⟨rhs.elems, rhs.cap⟩, ⟨[], 0⟩)

/-- First state of the spec scenario: three PushBack calls on an empty
vector. -/
def scenario1 : Vector Nat := PushBack (PushBack (PushBack ⟨[], 0⟩ 1) 2) 3

/-- Second state: Insert of 9 at position 1. -/
def scenario2 : Vector Nat := InsertRun scenario1 1 9

/-- Third state: Erase at position 0. -/
def scenario3 : Vector Nat := EraseRun scenario2 0

/-- Fourth state: Resize to 5, value-constructing the new slots (the model
uses the Inhabited default, which for Nat is the value-initialised 0). -/
def scenario4 : Vector Nat := Resize scenario3 5

/-- The assignment loop writes the first n elements of src over the first
n slots of dst. -/
theorem assignLoop_eq {α : Type} [Inhabited α] (dst src : List α) (n : Nat)
    (h1 : n ≤ dst.length) (h2 : n ≤ src.length) :
    assignLoop dst src n = src.take n ++ dst.drop n := by
  induction n with
  | zero => simp [assignLoop]
  | succ n ih =>
    rw [assignLoop, ih (by omega) (by omega)]
    rw [List.set_append]
    have hlt : n < src.length := by omega
    have hld : n < dst.length := by omega
    have hlen : (src.take n).length = n := by
      rw [List.length_take]; omega
    rw [if_neg (by omega)]
    rw [hlen, Nat.sub_self]
    rw [List.drop_eq_getElem_cons hld]
    have hgd : src.getD n default = src[n] := by
      rw [List.getD_eq_getElem?_getD, List.getElem?_eq_getElem hlt, Option.getD_some]
    rw [hgd, List.set_cons_zero]
    rw [List.take_succ, List.getElem?_eq_getElem hlt]
    simp only [Option.toList_some, List.append_assoc, List.singleton_append]

/-- Claim C7: copy-assignment constructs a full temporary copy and swaps
when rhs is larger than the capacity (the new capacity is then exactly
rhs.size, from the copy constructor of the temporary), and otherwise works
in place keeping the capacity: it copy-assigns the overlapping prefix of
min(size, rhs.size) elements, destructs the excess tail [rhs.size, size)
when shrinking and copy-constructs the extra tail [size, rhs.size) when
growing; in every case the resulting size is rhs.size and the elements
equal the elements of rhs. -/
theorem copy_assignment_spec {α : Type} [Inhabited α] (t rhs : Vector α) :
    (CopyAssignOp t rhs false).1 =
      ⟨rhs.elems, if Capacity t < Size rhs then Size rhs else Capacity t⟩ ∧
    Size (CopyAssignOp t rhs false).1 = Size rhs ∧
    (CopyAssignOp t rhs false).2 =
      (if Capacity t < Size rhs then [AsgEv.tempCopySwap]
       else if Size rhs < Size t then
         (List.range (Size rhs)).map AsgEv.assign
           ++ (List.range' (Size rhs) (Size t - Size rhs)).map AsgEv.destruct
       else
         (List.range (Size t)).map AsgEv.assign
           ++ (List.range' (Size t) (Size rhs - Size t)).map AsgEv.constructTail) := by
  have hmain : (CopyAssignOp t rhs false).1 =
      ⟨rhs.elems, if Capacity t < Size rhs then Size rhs else Capacity t⟩ ∧
      (CopyAssignOp t rhs false).2 =
      (if Capacity t < Size rhs then [AsgEv.tempCopySwap]
       else if Size rhs < Size t then
         (List.range (Size rhs)).map AsgEv.assign
           ++ (List.range' (Size rhs) (Size t - Size rhs)).map AsgEv.destruct
       else
         (List.range (Size t)).map AsgEv.assign
           ++ (List.range' (Size t) (Size rhs - Size t)).map AsgEv.constructTail) := by
    unfold CopyAssignOp CopyAssignBody Capacity
    by_cases h1 : Size rhs > t.cap
    · simp [h1]
    · by_cases h2 : Size rhs < Size t
      · have hrw : assignLoop t.elems rhs.elems (Size rhs) =
            rhs.elems.take (Size rhs) ++ t.elems.drop (Size rhs) :=
          assignLoop_eq t.elems rhs.elems (Size rhs) (by unfold Size at h2 ⊢; omega)
            (by unfold Size; omega)
        have htk : rhs.elems.take (Size rhs) = rhs.elems := by
          unfold Size; exact List.take_length rhs.elems
        have hfin : (rhs.elems ++ t.elems.drop (Size rhs)).take rhs.elems.length =
            rhs.elems := List.take_left rhs.elems (t.elems.drop (Size rhs))
        simp only [h1, if_false, h2, if_true, ite_false, ite_true]
        refine ⟨?_, rfl⟩
        rw [hrw, htk]
        unfold Size
        simp [hfin]
      · have hle : Size t ≤ Size rhs := by omega
        have hrw : assignLoop t.elems rhs.elems (Size t) =
            rhs.elems.take (Size t) ++ t.elems.drop (Size t) :=
          assignLoop_eq t.elems rhs.elems (Size t) (by unfold Size; omega)
            (by unfold Size at hle ⊢; omega)
        have hdr : t.elems.drop (Size t) = [] := by
          unfold Size; exact List.drop_length t.elems
        simp only [h1, if_false, h2, ite_false, ite_true]
        refine ⟨?_, rfl⟩
        rw [hrw, hdr, List.append_nil, List.take_append_drop]
        rfl
  refine ⟨hmain.1, ?_, hmain.2⟩
  rw [hmain.1]
  rfl

/-- Claim C9: move construction and move assignment transfer the buffer
(elements and capacity) and the size of the source to the destination,
and leave the source empty: size 0 and the null, zero-capacity buffer. -/
theorem move_ctor_assign_transfer {α : Type} (v t rhs : Vector α) :
    (MoveCtor v).1.elems = v.elems ∧ Size (MoveCtor v).1 = Size v ∧
    Capacity (MoveCtor v).1 = Capacity v ∧
    Size (MoveCtor v).2 = 0 ∧ Capacity (MoveCtor v).2 = 0 ∧
    (MoveAssignOp t rhs false).1.elems = rhs.elems ∧
    Size (MoveAssignOp t rhs false).1 = Size rhs ∧
    Capacity (MoveAssignOp t rhs false).1 = Capacity rhs ∧
    Size (MoveAssignOp t rhs false).2 = 0 ∧
    Capacity (MoveAssignOp t rhs false).2 = 0 := by
  simp [MoveCtor, MoveAssignOp, Size, Capacity]

/-- Claim C10: assigning a vector to itself, by copy assignment or by move
assignment, is a no-op thanks to the this != &rhs guard: the state (size,
capacity and all elements) is unchanged, and in particular self-move does
not empty the vector. -/
theorem self_assignment_noop {α : Type} [Inhabited α] (v : Vector α) :
    (CopyAssignOp v v true).1 = v ∧ (CopyAssignOp v v true).2 = [] ∧
    MoveAssignOp v v true = (v, v) := by
  refine ⟨?_, ?_, ?_⟩ <;> simp [CopyAssignOp, MoveAssignOp]

/-- Claim C6: starting from an empty vector, PushBack of 1, 2, 3 gives
Size 3, elements [1,2,3] and Capacity at least 3; Insert at position 1 of
value 9 gives elements [1,9,2,3] and Size 4; Erase at position 0 gives
elements [9,2,3] and Size 3; Resize(5) gives elements [9,2,3,0,0] and
Size 5. -/
theorem pushBack_insert_erase_resize_scenario :
    Size scenario1 = 3 ∧ scenario1.elems = [1, 2, 3] ∧ 3 ≤ Capacity scenario1 ∧
    scenario2.elems = [1, 9, 2, 3] ∧ Size scenario2 = 4 ∧
    scenario3.elems = [9, 2, 3] ∧ Size scenario3 = 3 ∧
    scenario4.elems = [9, 2, 3, 0, 0] ∧ Size scenario4 = 5 := by
  decide

/-- Claim C1: for every vector and every position offset outside
[0, size], Emplace and Insert fail with the invalid-position condition
raised by CheckIterator before any element is constructed, shifted or
destroyed: the outcome is the out_of_range exception carrying the vector
state exactly as it was, with an empty buffer-event trace. -/
theorem insert_emplace_invalid_pos_rejected (α ε : Type) [Inhabited α]
    (nothrowMove copyCtor : Bool) (copyFn : α → Except ε α)
    (v : Vector α) (pos : Int) (x : α)
    (h : pos < 0 ∨ (Size v : Int) < pos) :
    Emplace nothrowMove copyCtor copyFn v pos x = EmplaceOutcome.invalidPos v ∧
    Insert nothrowMove copyCtor copyFn v pos x = EmplaceOutcome.invalidPos v := by
  have hci : CheckIterator v pos = false := by
    simp only [CheckIterator, Bool.and_eq_false_iff, decide_eq_false_iff_not, not_le]
    omega
  constructor <;> simp [Insert, Emplace, hci]

/-- Witness for claim C1 at a concrete input: a vector of size 1 with the
position offset 2. -/
theorem insert_emplace_invalid_pos_rejected_witness :
    ((2 : Int) < 0 ∨ ((Size (⟨[5], 1⟩ : Vector Nat)) : Int) < 2) ∧
    (Emplace false true pureCopy (⟨[5], 1⟩ : Vector Nat) 2 7 =
        EmplaceOutcome.invalidPos ⟨[5], 1⟩ ∧
      Insert false true pureCopy (⟨[5], 1⟩ : Vector Nat) 2 7 =
        EmplaceOutcome.invalidPos ⟨[5], 1⟩) :=
  ⟨by decide,
    insert_emplace_invalid_pos_rejected Nat Unit false true pureCopy ⟨[5], 1⟩ 2 7
      (by decide)⟩

/-- Claim C2 (code bug evidence): CheckIterator accepts the one-past-the-
end position pos = size (it only rejects pos > size), so Erase at pos =
size is not rejected with the invalid-position failure: on the empty
vector it proceeds into the out-of-live-range operations
std::move(data_ + 1, data_ + 0, data_ + 0) and the destructor call on
data_[size_ - 1] with size_ = 0, and likewise for a full one-element
vector, where even computing data_ + pos + 1 violates the assertion
offset <= capacity_ of RawMemory::operator+. -/
theorem erase_end_pos_not_rejected :
    CheckIterator (⟨[], 0⟩ : Vector Nat) 0 = true ∧
    Erase (⟨[], 0⟩ : Vector Nat) 0 = EraseOutcome.outOfLiveRange ⟨[], 0⟩ ∧
    CheckIterator (⟨[7], 1⟩ : Vector Nat) 1 = true ∧
    Erase (⟨[7], 1⟩ : Vector Nat) 1 = EraseOutcome.outOfLiveRange ⟨[7], 1⟩ := by
  decide

/-- A never-failing element copy reproduces the list unchanged. -/
theorem uninitializedCopyN_pure {α : Type} (l : List α) :
    uninitializedCopyN pureCopy l = Except.ok l := by
  induction l with
  | nil => rfl
  | cons x xs ih => simp [uninitializedCopyN, pureCopy, ih]

/-- Characterisation of PushBack: the element is appended and the capacity
stays when a free slot exists, otherwise it doubles (1 from 0). -/
theorem PushBack_eq {α : Type} [Inhabited α] (v : Vector α) (x : α) :
    PushBack v x = ⟨v.elems ++ [x],
      if Size v ≠ v.cap ∧ v.cap ≠ 0 then v.cap
      else if v.cap = 0 then 1 else v.cap * 2⟩ := by
  have hci : CheckIterator v (Size v : Int) = true := by
    simp [CheckIterator]
  unfold PushBack EmplaceRun Emplace
  rw [hci]
  simp only [Bool.true_eq_false, if_false, Int.toNat_natCast]
  by_cases hc : Size v ≠ v.cap ∧ v.cap ≠ 0
  · rw [if_pos hc]
    simp only [if_pos hc]
    simp
  · rw [if_neg hc]
    simp only [useMoveRelocation, Bool.not_true, Bool.or_false]
    have h1 : v.elems.take (Size v) = v.elems := List.take_length v.elems
    have h2 : v.elems.drop (Size v) = [] := List.drop_length v.elems
    rw [h1, h2, uninitializedCopyN_pure]
    simp only [if_neg hc]
    simp [uninitializedCopyN]

/-- PushBack increments the size by one. -/
theorem Size_PushBack {α : Type} [Inhabited α] (v : Vector α) (x : α) :
    Size (PushBack v x) = Size v + 1 := by
  rw [PushBack_eq]; simp [Size]

/-- PushBack never decreases the capacity. -/
theorem cap_PushBack_mono {α : Type} [Inhabited α] (v : Vector α) (x : α) :
    v.cap ≤ (PushBack v x).cap := by
  rw [PushBack_eq]
  dsimp only
  by_cases hc : Size v ≠ v.cap ∧ v.cap ≠ 0
  · rw [if_pos hc]
  · rw [if_neg hc]
    by_cases h0 : v.cap = 0
    · simp [h0]
    · rw [if_neg h0]; omega

/-- PushBack preserves the representation invariant size <= capacity. -/
theorem inv_PushBack {α : Type} [Inhabited α] (v : Vector α) (x : α)
    (h : Size v ≤ v.cap) : Size (PushBack v x) ≤ (PushBack v x).cap := by
  rw [PushBack_eq]
  unfold Size at h ⊢
  simp only [List.length_append, List.length_cons, List.length_nil]
  by_cases hc : v.elems.length ≠ v.cap ∧ v.cap ≠ 0
  · rw [if_pos hc]
    omega
  · rw [if_neg hc]
    by_cases h0 : v.cap = 0
    · rw [if_pos h0]
      omega
    · rw [if_neg h0]
      omega

/-- The size after a sequence of PushBack calls. -/
theorem pushSeq_size {α : Type} [Inhabited α] (v : Vector α) (xs : List α) :
    Size (pushSeq v xs) = Size v + xs.length := by
  induction xs generalizing v with
  | nil => simp [pushSeq]
  | cons a as ih =>
    have h : pushSeq v (a :: as) = pushSeq (PushBack v a) as := rfl
    rw [h, ih, Size_PushBack]
    simp
    omega

/-- The capacity never decreases along a sequence of PushBack calls. -/
theorem pushSeq_cap_mono {α : Type} [Inhabited α] (v : Vector α) (xs : List α) :
    v.cap ≤ (pushSeq v xs).cap := by
  induction xs generalizing v with
  | nil => simp [pushSeq]
  | cons a as ih =>
    have h : pushSeq v (a :: as) = pushSeq (PushBack v a) as := rfl
    rw [h]
    exact le_trans (cap_PushBack_mono v a) (ih (PushBack v a))

/-- The representation invariant is preserved by a sequence of PushBack
calls. -/
theorem pushSeq_inv {α : Type} [Inhabited α] (v : Vector α) (xs : List α)
    (h : Size v ≤ v.cap) : Size (pushSeq v xs) ≤ (pushSeq v xs).cap := by
  induction xs generalizing v with
  | nil => simpa [pushSeq] using h
  | cons a as ih =>
    have heq : pushSeq v (a :: as) = pushSeq (PushBack v a) as := rfl
    rw [heq]
    exact ih (PushBack v a) (inv_PushBack v a h)

/-- Splitting one step off a PushBack sequence. -/
theorem pushSeq_take_succ {α : Type} [Inhabited α] (v : Vector α) (xs : List α)
    (k : Nat) (hk : k < xs.length) :
    pushSeq v (xs.take (k + 1)) = PushBack (pushSeq v (xs.take k)) xs[k] := by
  unfold pushSeq
  rw [List.take_succ, List.getElem?_eq_getElem hk]
  simp only [Option.toList_some, List.foldl_append, List.foldl_cons, List.foldl_nil]

/-- Claim C8: for every sequence of PushBack calls from a state satisfying
the size <= capacity invariant, the size after all calls is the initial
size plus the number of calls, the capacity never decreases from one step
to the next, the invariant holds after every step, and whenever the
capacity is exhausted the next PushBack grows it to double the old
capacity, or to 1 from capacity 0. -/
theorem pushBack_sequence {α : Type} [Inhabited α] (v : Vector α) (xs : List α)
    (k : Nat) (h : Size v ≤ Capacity v) :
    Size (pushSeq v xs) = Size v + xs.length ∧
    Capacity (pushSeq v (xs.take k)) ≤ Capacity (pushSeq v (xs.take (k + 1))) ∧
    Size (pushSeq v (xs.take k)) ≤ Capacity (pushSeq v (xs.take k)) ∧
    (k < xs.length →
      Size (pushSeq v (xs.take k)) = Capacity (pushSeq v (xs.take k)) →
      Capacity (pushSeq v (xs.take (k + 1))) =
        (if Capacity (pushSeq v (xs.take k)) = 0 then 1
         else Capacity (pushSeq v (xs.take k)) * 2)) := by
  refine ⟨pushSeq_size v xs, ?_, pushSeq_inv v (xs.take k) h, ?_⟩
  · by_cases hk : k < xs.length
    · rw [pushSeq_take_succ v xs k hk]
      exact cap_PushBack_mono (pushSeq v (xs.take k)) xs[k]
    · rw [List.take_of_length_le (by omega), List.take_of_length_le (by omega)]
  · intro hk hfull
    have hcond : ¬(Size (pushSeq v (xs.take k)) ≠ (pushSeq v (xs.take k)).cap ∧
        (pushSeq v (xs.take k)).cap ≠ 0) := by
      intro hcon
      exact hcon.1 hfull
    rw [pushSeq_take_succ v xs k hk, PushBack_eq]
    unfold Capacity
    rw [if_neg hcond]

/-- Witness for claim C8 at a concrete input: three PushBack calls on an
empty vector, with the step k = 1 (where the capacity 2 is exhausted by
two elements, so the next push doubles it). -/
theorem pushBack_sequence_witness :
    Size (⟨[], 0⟩ : Vector Nat) ≤ Capacity (⟨[], 0⟩ : Vector Nat) ∧
    (Size (pushSeq (⟨[], 0⟩ : Vector Nat) [5, 6, 7]) =
        Size (⟨[], 0⟩ : Vector Nat) + [5, 6, 7].length ∧
      Capacity (pushSeq (⟨[], 0⟩ : Vector Nat) ([5, 6, 7].take 1)) ≤
        Capacity (pushSeq (⟨[], 0⟩ : Vector Nat) ([5, 6, 7].take (1 + 1))) ∧
      Size (pushSeq (⟨[], 0⟩ : Vector Nat) ([5, 6, 7].take 1)) ≤
        Capacity (pushSeq (⟨[], 0⟩ : Vector Nat) ([5, 6, 7].take 1)) ∧
      (1 < [5, 6, 7].length →
        Size (pushSeq (⟨[], 0⟩ : Vector Nat) ([5, 6, 7].take 1)) =
          Capacity (pushSeq (⟨[], 0⟩ : Vector Nat) ([5, 6, 7].take 1)) →
        Capacity (pushSeq (⟨[], 0⟩ : Vector Nat) ([5, 6, 7].take (1 + 1))) =
          (if Capacity (pushSeq (⟨[], 0⟩ : Vector Nat) ([5, 6, 7].take 1)) = 0
            then 1
           else Capacity (pushSeq (⟨[], 0⟩ : Vector Nat) ([5, 6, 7].take 1)) * 2))) :=
  ⟨by decide, pushBack_sequence ⟨[], 0⟩ [5, 6, 7] 1 (by decide)⟩

theorem filterMap_comp_some {α β : Type} (f : α → β) (l : List α) :
    List.filterMap (fun a => some (f a)) l = l.map f := by
  induction l with
  | nil => rfl
  | cons x xs ih => simp [List.filterMap_cons, ih]

@[simp] theorem constructedSlots_constructEvents (b k : Nat) :
    constructedSlots (constructEvents b k) = List.range' b k := by
  unfold constructedSlots constructEvents
  rw [List.filterMap_map, List.range'_eq_map_range]
  exact filterMap_comp_some (fun i => b + i) (List.range k)

@[simp] theorem destroyedSlots_constructEvents (b k : Nat) :
    destroyedSlots (constructEvents b k) = [] := by
  unfold destroyedSlots constructEvents
  rw [List.filterMap_map]
  simp [List.filterMap_eq_nil_iff, Function.comp]

@[simp] theorem catchSlots_constructEvents (b k : Nat) :
    catchSlots (constructEvents b k) = [] := by
  unfold catchSlots constructEvents
  rw [List.filterMap_map]
  simp [List.filterMap_eq_nil_iff, Function.comp]

@[simp] theorem touchesOld_constructEvents (b k : Nat) :
    touchesOldBuffer (constructEvents b k) = false := by
  unfold touchesOldBuffer constructEvents
  simp [List.any_map, Function.comp]

@[simp] theorem constructedSlots_rollbackEvents (b k : Nat) :
    constructedSlots (rollbackEvents b k) = [] := by
  unfold constructedSlots rollbackEvents
  rw [List.filterMap_map]
  simp [List.filterMap_eq_nil_iff, Function.comp]

@[simp] theorem destroyedSlots_rollbackEvents (b k : Nat) :
    destroyedSlots (rollbackEvents b k) = (List.range' b k).reverse := by
  unfold destroyedSlots rollbackEvents
  rw [List.filterMap_map]
  have h1 : List.filterMap
      ((fun ev => match ev with
        | Ev.rollbackDestroy i => some i
        | Ev.catchDestroy i => some i
        | _ => none) ∘ fun i => Ev.rollbackDestroy (b + i)) (List.range k).reverse =
      List.map (fun i => b + i) (List.range k).reverse :=
    filterMap_comp_some (fun i => b + i) (List.range k).reverse
  rw [h1, List.map_reverse, ← List.range'_eq_map_range]

@[simp] theorem catchSlots_rollbackEvents (b k : Nat) :
    catchSlots (rollbackEvents b k) = [] := by
  unfold catchSlots rollbackEvents
  rw [List.filterMap_map]
  simp [List.filterMap_eq_nil_iff, Function.comp]

@[simp] theorem touchesOld_rollbackEvents (b k : Nat) :
    touchesOldBuffer (rollbackEvents b k) = false := by
  unfold touchesOldBuffer rollbackEvents
  simp [List.any_map, Function.comp]

@[simp] theorem constructedSlots_catchDestroyEvents (k : Nat) :
    constructedSlots (catchDestroyEvents k) = [] := by
  unfold constructedSlots catchDestroyEvents
  rw [List.filterMap_map]
  simp [List.filterMap_eq_nil_iff, Function.comp]

@[simp] theorem destroyedSlots_catchDestroyEvents (k : Nat) :
    destroyedSlots (catchDestroyEvents k) = List.range k := by
  unfold destroyedSlots catchDestroyEvents
  rw [List.filterMap_map]
  have h1 : List.filterMap
      ((fun ev => match ev with
        | Ev.rollbackDestroy i => some i
        | Ev.catchDestroy i => some i
        | _ => none) ∘ fun i => Ev.catchDestroy i) (List.range k) =
      List.map (fun i => i) (List.range k) :=
    filterMap_comp_some (fun i => i) (List.range k)
  rw [h1, List.map_id']

@[simp] theorem catchSlots_catchDestroyEvents (k : Nat) :
    catchSlots (catchDestroyEvents k) = List.range k := by
  unfold catchSlots catchDestroyEvents
  rw [List.filterMap_map]
  have h1 : List.filterMap
      ((fun ev => match ev with
        | Ev.catchDestroy i => some i
        | _ => none) ∘ fun i => Ev.catchDestroy i) (List.range k) =
      List.map (fun i => i) (List.range k) :=
    filterMap_comp_some (fun i => i) (List.range k)
  rw [h1, List.map_id']

@[simp] theorem touchesOld_catchDestroyEvents (k : Nat) :
    touchesOldBuffer (catchDestroyEvents k) = false := by
  unfold touchesOldBuffer catchDestroyEvents
  simp [List.any_map, Function.comp]


@[simp] theorem constructedSlots_nil : constructedSlots [] = [] := rfl

@[simp] theorem destroyedSlots_nil : destroyedSlots [] = [] := rfl

@[simp] theorem catchSlots_nil : catchSlots [] = [] := rfl

@[simp] theorem touchesOld_nil : touchesOldBuffer [] = false := rfl

@[simp] theorem constructedSlots_append (a b : List Ev) :
    constructedSlots (a ++ b) = constructedSlots a ++ constructedSlots b := by
  simp [constructedSlots]

@[simp] theorem destroyedSlots_append (a b : List Ev) :
    destroyedSlots (a ++ b) = destroyedSlots a ++ destroyedSlots b := by
  simp [destroyedSlots]

@[simp] theorem catchSlots_append (a b : List Ev) :
    catchSlots (a ++ b) = catchSlots a ++ catchSlots b := by
  simp [catchSlots]

@[simp] theorem touchesOld_append (a b : List Ev) :
    touchesOldBuffer (a ++ b) = (touchesOldBuffer a || touchesOldBuffer b) := by
  simp [touchesOldBuffer]

@[simp] theorem constructedSlots_cons_allocNew (c : Nat) (tr : List Ev) :
    constructedSlots (Ev.allocNew c :: tr) = constructedSlots tr := rfl

@[simp] theorem constructedSlots_cons_constructNew (i : Nat) (tr : List Ev) :
    constructedSlots (Ev.constructNew i :: tr) = i :: constructedSlots tr := rfl

@[simp] theorem constructedSlots_cons_rollbackDestroy (i : Nat) (tr : List Ev) :
    constructedSlots (Ev.rollbackDestroy i :: tr) = constructedSlots tr := rfl

@[simp] theorem constructedSlots_cons_catchDestroy (i : Nat) (tr : List Ev) :
    constructedSlots (Ev.catchDestroy i :: tr) = constructedSlots tr := rfl

@[simp] theorem constructedSlots_cons_destroyOld (m : Nat) (tr : List Ev) :
    constructedSlots (Ev.destroyOld m :: tr) = constructedSlots tr := rfl

@[simp] theorem constructedSlots_cons_swapBuffers (tr : List Ev) :
    constructedSlots (Ev.swapBuffers :: tr) = constructedSlots tr := rfl

@[simp] theorem constructedSlots_cons_releaseNew (tr : List Ev) :
    constructedSlots (Ev.releaseNew :: tr) = constructedSlots tr := rfl

@[simp] theorem destroyedSlots_cons_allocNew (c : Nat) (tr : List Ev) :
    destroyedSlots (Ev.allocNew c :: tr) = destroyedSlots tr := rfl

@[simp] theorem destroyedSlots_cons_constructNew (i : Nat) (tr : List Ev) :
    destroyedSlots (Ev.constructNew i :: tr) = destroyedSlots tr := rfl

@[simp] theorem destroyedSlots_cons_rollbackDestroy (i : Nat) (tr : List Ev) :
    destroyedSlots (Ev.rollbackDestroy i :: tr) = i :: destroyedSlots tr := rfl

@[simp] theorem destroyedSlots_cons_catchDestroy (i : Nat) (tr : List Ev) :
    destroyedSlots (Ev.catchDestroy i :: tr) = i :: destroyedSlots tr := rfl

@[simp] theorem destroyedSlots_cons_destroyOld (m : Nat) (tr : List Ev) :
    destroyedSlots (Ev.destroyOld m :: tr) = destroyedSlots tr := rfl

@[simp] theorem destroyedSlots_cons_swapBuffers (tr : List Ev) :
    destroyedSlots (Ev.swapBuffers :: tr) = destroyedSlots tr := rfl

@[simp] theorem destroyedSlots_cons_releaseNew (tr : List Ev) :
    destroyedSlots (Ev.releaseNew :: tr) = destroyedSlots tr := rfl

@[simp] theorem catchSlots_cons_allocNew (c : Nat) (tr : List Ev) :
    catchSlots (Ev.allocNew c :: tr) = catchSlots tr := rfl

@[simp] theorem catchSlots_cons_constructNew (i : Nat) (tr : List Ev) :
    catchSlots (Ev.constructNew i :: tr) = catchSlots tr := rfl

@[simp] theorem catchSlots_cons_rollbackDestroy (i : Nat) (tr : List Ev) :
    catchSlots (Ev.rollbackDestroy i :: tr) = catchSlots tr := rfl

@[simp] theorem catchSlots_cons_catchDestroy (i : Nat) (tr : List Ev) :
    catchSlots (Ev.catchDestroy i :: tr) = i :: catchSlots tr := rfl

@[simp] theorem catchSlots_cons_destroyOld (m : Nat) (tr : List Ev) :
    catchSlots (Ev.destroyOld m :: tr) = catchSlots tr := rfl

@[simp] theorem catchSlots_cons_swapBuffers (tr : List Ev) :
    catchSlots (Ev.swapBuffers :: tr) = catchSlots tr := rfl

@[simp] theorem catchSlots_cons_releaseNew (tr : List Ev) :
    catchSlots (Ev.releaseNew :: tr) = catchSlots tr := rfl

@[simp] theorem touchesOld_cons_allocNew (c : Nat) (tr : List Ev) :
    touchesOldBuffer (Ev.allocNew c :: tr) = touchesOldBuffer tr := by
  simp [touchesOldBuffer]

@[simp] theorem touchesOld_cons_constructNew (i : Nat) (tr : List Ev) :
    touchesOldBuffer (Ev.constructNew i :: tr) = touchesOldBuffer tr := by
  simp [touchesOldBuffer]

@[simp] theorem touchesOld_cons_rollbackDestroy (i : Nat) (tr : List Ev) :
    touchesOldBuffer (Ev.rollbackDestroy i :: tr) = touchesOldBuffer tr := by
  simp [touchesOldBuffer]

@[simp] theorem touchesOld_cons_catchDestroy (i : Nat) (tr : List Ev) :
    touchesOldBuffer (Ev.catchDestroy i :: tr) = touchesOldBuffer tr := by
  simp [touchesOldBuffer]

@[simp] theorem touchesOld_cons_destroyOld (m : Nat) (tr : List Ev) :
    touchesOldBuffer (Ev.destroyOld m :: tr) = true := by
  simp [touchesOldBuffer]

@[simp] theorem touchesOld_cons_swapBuffers (tr : List Ev) :
    touchesOldBuffer (Ev.swapBuffers :: tr) = true := by
  simp [touchesOldBuffer]

@[simp] theorem touchesOld_cons_releaseNew (tr : List Ev) :
    touchesOldBuffer (Ev.releaseNew :: tr) = touchesOldBuffer tr := by
  simp [touchesOldBuffer]

theorem uninitializedCopyN_okmap {α ε : Type} (f : α → α) (l : List α) :
    uninitializedCopyN (fun a => (Except.ok (f a) : Except ε α)) l =
      Except.ok (l.map f) := by
  induction l with
  | nil => rfl
  | cons x xs ih => simp [uninitializedCopyN, ih]

/-- Claim C3: when the element type is copy constructible but not
nothrow-move constructible, Reserve relocates by copy; if some element
copy throws during the relocation, every destination element already
constructed is destroyed (the permutation of destroyed and constructed
new-buffer slots), the new buffer is released, the old live elements are
neither destroyed nor swapped, the error propagates as the outcome, and
the vector state left behind equals the original (same size, capacity and
elements). -/
theorem reserve_copy_throw_strong {α ε : Type} (copyFn : α → Except ε α)
    (v : Vector α) (c : Nat) (e : ε) (tr : List Ev) (w : Vector α)
    (hthrew : Reserve false true copyFn v c = ReserveOutcome.threw e tr w) :
    w = v ∧ Ev.releaseNew ∈ tr ∧
    List.Perm (destroyedSlots tr) (constructedSlots tr) ∧
    touchesOldBuffer tr = false := by
  unfold Reserve at hthrew
  by_cases hle : c ≤ v.cap
  · rw [if_pos hle] at hthrew
    exact absurd hthrew (by simp)
  · rw [if_neg hle] at hthrew
    simp only [useMoveRelocation, Bool.not_true, Bool.or_false, Bool.false_eq_true,
      if_false] at hthrew
    cases hcp : uninitializedCopyN copyFn v.elems with
    | ok ys =>
      rw [hcp] at hthrew
      exact absurd hthrew (by simp)
    | error pe =>
      obtain ⟨k, e0⟩ := pe
      rw [hcp] at hthrew
      injection hthrew with he htr hw
      refine ⟨hw.symm, ?_, ?_, ?_⟩
      · rw [← htr]
        simp
      · rw [← htr]
        simp
      · rw [← htr]
        simp

/-- Claim C5: on every growing Reserve call, live elements are relocated
by move construction exactly when the move constructor is declared
non-throwing or the type is not copy constructible: on the move path the
outcome never consults the copy oracle (even an always-throwing one) and
transfers the element values unchanged, while on the copy path every
element is passed through the copy constructor. -/
theorem reserve_relocation_policy {α ε : Type} (nm cc : Bool)
    (copyFn : α → Except ε α) (f : α → α) (v : Vector α) (c : Nat)
    (h : Capacity v < c) :
    ((nm = true ∨ cc = false) →
      Reserve nm cc copyFn v c = ReserveOutcome.ok ⟨v.elems, c⟩
        ([Ev.allocNew c] ++ constructEvents 0 (Size v)
          ++ [Ev.swapBuffers, Ev.destroyOld (Size v)])) ∧
    ((nm = false ∧ cc = true) →
      Reserve nm cc (fun a => (Except.ok (f a) : Except ε α)) v c =
        ReserveOutcome.ok ⟨v.elems.map f, c⟩
          ([Ev.allocNew c] ++ constructEvents 0 (Size v)
            ++ [Ev.swapBuffers, Ev.destroyOld (Size v)])) := by
  unfold Capacity at h
  constructor
  · intro hor
    have hm : useMoveRelocation nm cc = true := by
      rcases hor with h2 | h2 <;> simp [useMoveRelocation, h2]
    unfold Reserve
    rw [if_neg (by omega), hm]
    simp
  · rintro ⟨hnm, hcc⟩
    subst hnm
    subst hcc
    unfold Reserve
    rw [if_neg (by omega)]
    simp only [useMoveRelocation, Bool.not_true, Bool.or_false, Bool.false_eq_true,
      if_false]
    rw [uninitializedCopyN_okmap f v.elems]

/-- Claim C4: on the reallocation path of Emplace (capacity exhausted or
zero) under the copy relocation policy, the new element is constructed in
its final slot of the new buffer first (head of the constructed slots);
whenever a relocation throws, the state left behind is the original
vector, the new buffer is released, every constructed new-buffer slot is
destroyed, and the old buffer is untouched; if the prefix relocation
throws, the catch block destroys only the new element (slot pos); if the
suffix relocation throws after the prefix succeeded, the catch block
destroys slots 0..pos (the prefix copies and the new element); and on
success the trace ends by destroying the old live elements and then
swapping buffers, with no destructor call on the new buffer and no
release of it. -/
theorem emplace_realloc_strong {α ε : Type} [Inhabited α]
    (copyFn : α → Except ε α) (v : Vector α) (pos : Int) (x : α)
    (hre : Size v = Capacity v ∨ Capacity v = 0)
    (h0 : 0 ≤ pos) (h1 : pos ≤ (Size v : Int)) :
    (constructedSlots (traceOf (Emplace false true copyFn v pos x))).head? =
      some pos.toNat ∧
    (isThrewOut (Emplace false true copyFn v pos x) = true →
      throwState (Emplace false true copyFn v pos x) = some v ∧
      Ev.releaseNew ∈ traceOf (Emplace false true copyFn v pos x) ∧
      List.Perm (destroyedSlots (traceOf (Emplace false true copyFn v pos x)))
        (constructedSlots (traceOf (Emplace false true copyFn v pos x))) ∧
      touchesOldBuffer (traceOf (Emplace false true copyFn v pos x)) = false) ∧
    (exceptFailed (uninitializedCopyN copyFn (v.elems.take pos.toNat)) = true →
      catchSlots (traceOf (Emplace false true copyFn v pos x)) = [pos.toNat]) ∧
    (exceptFailed (uninitializedCopyN copyFn (v.elems.take pos.toNat)) = false ∧
      exceptFailed (uninitializedCopyN copyFn (v.elems.drop pos.toNat)) = true →
      catchSlots (traceOf (Emplace false true copyFn v pos x)) =
        List.range (pos.toNat + 1)) ∧
    (isOkOut (Emplace false true copyFn v pos x) = true →
      (traceOf (Emplace false true copyFn v pos x)).getLast? =
        some Ev.swapBuffers ∧
      (traceOf (Emplace false true copyFn v pos x)).dropLast.getLast? =
        some (Ev.destroyOld (Size v)) ∧
      touchesOldBuffer
        ((traceOf (Emplace false true copyFn v pos x)).dropLast.dropLast) = false ∧
      destroyedSlots (traceOf (Emplace false true copyFn v pos x)) = [] ∧
      Ev.releaseNew ∉ traceOf (Emplace false true copyFn v pos x)) := by
  have hci : CheckIterator v pos = true := by
    simp only [CheckIterator, Bool.and_eq_true, decide_eq_true_eq]
    exact ⟨h0, h1⟩
  have hnc : ¬(Size v ≠ v.cap ∧ v.cap ≠ 0) := by
    unfold Capacity at hre
    rcases hre with h | h
    · intro hcon; exact hcon.1 h
    · intro hcon; exact hcon.2 h
  cases hp : uninitializedCopyN copyFn (v.elems.take pos.toNat) with
  | error pe =>
    obtain ⟨k, e⟩ := pe
    have hE : Emplace false true copyFn v pos x =
        EmplaceOutcome.threw e
          ([Ev.allocNew (if v.cap = 0 then 1 else v.cap * 2),
              Ev.constructNew pos.toNat]
            ++ constructEvents 0 k ++ rollbackEvents 0 k
            ++ [Ev.catchDestroy pos.toNat, Ev.releaseNew]) v := by
      unfold Emplace
      rw [hci]
      simp only [Bool.true_eq_false, if_false]
      rw [if_neg hnc]
      simp only [useMoveRelocation, Bool.not_true, Bool.or_false,
        Bool.false_eq_true, if_false]
      rw [hp]
    rw [hE]
    refine ⟨?_, ?_, ?_, ?_, ?_⟩
    · simp [traceOf]
    · intro _
      refine ⟨rfl, ?_, ?_, ?_⟩
      · simp [traceOf]
      · simp [traceOf]
        have p1 : List.Perm ((List.range' 0 k).reverse ++ [pos.toNat])
            (List.range' 0 k ++ [pos.toNat]) :=
          (List.reverse_perm (List.range' 0 k)).append_right [pos.toNat]
        have p2 : List.Perm (List.range' 0 k ++ [pos.toNat])
            (pos.toNat :: List.range' 0 k) :=
          List.perm_append_singleton _ _
        exact p1.trans p2
      · simp [traceOf]
    · intro _
      simp [traceOf]
    · rintro ⟨hc1, _⟩
      simp [exceptFailed] at hc1
    · intro hok
      simp [isOkOut] at hok
  | ok preC =>
    cases hs : uninitializedCopyN copyFn (v.elems.drop pos.toNat) with
    | error pe =>
      obtain ⟨k, e⟩ := pe
      have hE : Emplace false true copyFn v pos x =
          EmplaceOutcome.threw e
            ([Ev.allocNew (if v.cap = 0 then 1 else v.cap * 2),
                Ev.constructNew pos.toNat]
              ++ constructEvents 0 pos.toNat
              ++ constructEvents (pos.toNat + 1) k
              ++ rollbackEvents (pos.toNat + 1) k
              ++ catchDestroyEvents (pos.toNat + 1) ++ [Ev.releaseNew]) v := by
        unfold Emplace
        rw [hci]
        simp only [Bool.true_eq_false, if_false]
        rw [if_neg hnc]
        simp only [useMoveRelocation, Bool.not_true, Bool.or_false,
          Bool.false_eq_true, if_false]
        rw [hp, hs]
      rw [hE]
      refine ⟨?_, ?_, ?_, ?_, ?_⟩
      · simp [traceOf]
      · intro _
        refine ⟨rfl, ?_, ?_, ?_⟩
        · simp [traceOf]
        · simp [traceOf]
          have p1 : List.Perm
              ((List.range' (pos.toNat + 1) k).reverse ++ List.range (pos.toNat + 1))
              (List.range' (pos.toNat + 1) k ++ List.range (pos.toNat + 1)) :=
            (List.reverse_perm _).append_right _
          have p2 : List.Perm
              (List.range' (pos.toNat + 1) k ++ List.range (pos.toNat + 1))
              (List.range (pos.toNat + 1) ++ List.range' (pos.toNat + 1) k) :=
            List.perm_append_comm
          have p3 : List.Perm
              ((List.range pos.toNat ++ [pos.toNat]) ++ List.range' (pos.toNat + 1) k)
              ((pos.toNat :: List.range pos.toNat) ++ List.range' (pos.toNat + 1) k) :=
            (List.perm_append_singleton _ _).append_right _
          have p4 : (List.range (pos.toNat + 1) ++ List.range' (pos.toNat + 1) k) =
              ((List.range pos.toNat ++ [pos.toNat]) ++ List.range' (pos.toNat + 1) k) := by
            rw [List.range_succ]
          have p5 : ((pos.toNat :: List.range pos.toNat) ++ List.range' (pos.toNat + 1) k) =
              pos.toNat :: (List.range' 0 pos.toNat ++ List.range' (pos.toNat + 1) k) := by
            rw [List.range_eq_range']
            simp
          have := (p1.trans p2).trans (p4 ▸ p3)
          rw [p5] at this
          exact this
        · simp [traceOf]
      · intro hc1
        simp [exceptFailed] at hc1
      · rintro ⟨_, _⟩
        simp [traceOf, List.range_eq_range']
      · intro hok
        simp [isOkOut] at hok
    | ok sufC =>
      have hE : Emplace false true copyFn v pos x =
          EmplaceOutcome.ok ⟨preC ++ x :: sufC, if v.cap = 0 then 1 else v.cap * 2⟩
            pos.toNat
            ([Ev.allocNew (if v.cap = 0 then 1 else v.cap * 2),
                Ev.constructNew pos.toNat]
              ++ constructEvents 0 pos.toNat
              ++ constructEvents (pos.toNat + 1) (v.elems.drop pos.toNat).length
              ++ [Ev.destroyOld (Size v), Ev.swapBuffers]) := by
        unfold Emplace
        rw [hci]
        simp only [Bool.true_eq_false, if_false]
        rw [if_neg hnc]
        simp only [useMoveRelocation, Bool.not_true, Bool.or_false,
          Bool.false_eq_true, if_false]
        rw [hp, hs]
      rw [hE]
      refine ⟨?_, ?_, ?_, ?_, ?_⟩
      · simp [traceOf]
      · intro hth
        simp [isThrewOut] at hth
      · intro hc1
        simp [exceptFailed] at hc1
      · rintro ⟨_, hc2⟩
        simp [exceptFailed] at hc2
      · intro _
        have hsh : ([Ev.allocNew (if v.cap = 0 then 1 else v.cap * 2),
              Ev.constructNew pos.toNat]
            ++ constructEvents 0 pos.toNat
            ++ constructEvents (pos.toNat + 1) (v.elems.drop pos.toNat).length
            ++ [Ev.destroyOld (Size v), Ev.swapBuffers]) =
            (([Ev.allocNew (if v.cap = 0 then 1 else v.cap * 2),
                Ev.constructNew pos.toNat]
              ++ constructEvents 0 pos.toNat
              ++ constructEvents (pos.toNat + 1) (v.elems.drop pos.toNat).length
              ++ [Ev.destroyOld (Size v)]) ++ [Ev.swapBuffers]) := by
          simp
        refine ⟨?_, ?_, ?_, ?_, ?_⟩
        · simp only [traceOf]
          rw [hsh, List.getLast?_concat]
        · simp only [traceOf]
          rw [hsh, List.dropLast_concat]
          have hsh2 : ([Ev.allocNew (if v.cap = 0 then 1 else v.cap * 2),
                Ev.constructNew pos.toNat]
              ++ constructEvents 0 pos.toNat
              ++ constructEvents (pos.toNat + 1) (v.elems.drop pos.toNat).length
              ++ [Ev.destroyOld (Size v)]) =
              (([Ev.allocNew (if v.cap = 0 then 1 else v.cap * 2),
                  Ev.constructNew pos.toNat]
                ++ constructEvents 0 pos.toNat
                ++ constructEvents (pos.toNat + 1)
                    (v.elems.drop pos.toNat).length) ++ [Ev.destroyOld (Size v)]) := by
            simp
          rw [hsh2, List.getLast?_concat]
        · simp only [traceOf]
          rw [hsh, List.dropLast_concat]
          have hsh2 : ([Ev.allocNew (if v.cap = 0 then 1 else v.cap * 2),
                Ev.constructNew pos.toNat]
              ++ constructEvents 0 pos.toNat
              ++ constructEvents (pos.toNat + 1) (v.elems.drop pos.toNat).length
              ++ [Ev.destroyOld (Size v)]) =
              (([Ev.allocNew (if v.cap = 0 then 1 else v.cap * 2),
                  Ev.constructNew pos.toNat]
                ++ constructEvents 0 pos.toNat
                ++ constructEvents (pos.toNat + 1)
                    (v.elems.drop pos.toNat).length) ++ [Ev.destroyOld (Size v)]) := by
            simp
          rw [hsh2, List.dropLast_concat]
          simp
        · simp [traceOf]
        · simp [traceOf, constructEvents]

/-- Witness for claim C3 at a concrete input: reserving 5 slots for a
vector [1, 2, 3] whose copy constructor throws on the value 2. -/
theorem reserve_copy_throw_strong_witness :
    Reserve false true failAt2 (⟨[1, 2, 3], 3⟩ : Vector Nat) 5 =
      ReserveOutcome.threw ()
        [Ev.allocNew 5, Ev.constructNew 0, Ev.rollbackDestroy 0, Ev.releaseNew]
        ⟨[1, 2, 3], 3⟩ ∧
    ((⟨[1, 2, 3], 3⟩ : Vector Nat) = ⟨[1, 2, 3], 3⟩ ∧
      Ev.releaseNew ∈
        [Ev.allocNew 5, Ev.constructNew 0, Ev.rollbackDestroy 0, Ev.releaseNew] ∧
      List.Perm
        (destroyedSlots
          [Ev.allocNew 5, Ev.constructNew 0, Ev.rollbackDestroy 0, Ev.releaseNew])
        (constructedSlots
          [Ev.allocNew 5, Ev.constructNew 0, Ev.rollbackDestroy 0, Ev.releaseNew]) ∧
      touchesOldBuffer
        [Ev.allocNew 5, Ev.constructNew 0, Ev.rollbackDestroy 0, Ev.releaseNew] =
        false) :=
  ⟨by decide,
    reserve_copy_throw_strong failAt2 ⟨[1, 2, 3], 3⟩ 5 ()
      [Ev.allocNew 5, Ev.constructNew 0, Ev.rollbackDestroy 0, Ev.releaseNew]
      ⟨[1, 2, 3], 3⟩ (by decide)⟩

/-- Witness for claim C5 at a concrete input: a growing Reserve on a
one-element vector, with the move policy selected, under an
always-throwing copy oracle. -/
theorem reserve_relocation_policy_witness :
    Capacity (⟨[7], 1⟩ : Vector Nat) < 3 ∧
    (((true : Bool) = true ∨ (true : Bool) = false) →
      Reserve true true (fun _ => (Except.error () : Except Unit Nat)) ⟨[7], 1⟩ 3 =
        ReserveOutcome.ok ⟨(⟨[7], 1⟩ : Vector Nat).elems, 3⟩
          ([Ev.allocNew 3] ++ constructEvents 0 (Size (⟨[7], 1⟩ : Vector Nat))
            ++ [Ev.swapBuffers, Ev.destroyOld (Size (⟨[7], 1⟩ : Vector Nat))])) ∧
    (((true : Bool) = false ∧ (true : Bool) = true) →
      Reserve true true (fun a => (Except.ok (a + 1) : Except Unit Nat)) ⟨[7], 1⟩ 3 =
        ReserveOutcome.ok ⟨(⟨[7], 1⟩ : Vector Nat).elems.map (fun b => b + 1), 3⟩
          ([Ev.allocNew 3] ++ constructEvents 0 (Size (⟨[7], 1⟩ : Vector Nat))
            ++ [Ev.swapBuffers, Ev.destroyOld (Size (⟨[7], 1⟩ : Vector Nat))])) :=
  ⟨by decide,
    (reserve_relocation_policy true true (fun _ => Except.error ())
      (fun b => b + 1) ⟨[7], 1⟩ 3 (by decide)).1,
    (reserve_relocation_policy true true (fun _ => Except.error ())
      (fun b => b + 1) ⟨[7], 1⟩ 3 (by decide)).2⟩

/-- Witness for claim C4 at a concrete input: emplacing 9 at position 1
of the full vector [1, 2] (size equals capacity, so the reallocation path
runs) with a copy constructor that throws on the value 2, so the suffix
relocation fails. -/
theorem emplace_realloc_strong_witness :
    (Size (⟨[1, 2], 2⟩ : Vector Nat) = Capacity (⟨[1, 2], 2⟩ : Vector Nat) ∨
      Capacity (⟨[1, 2], 2⟩ : Vector Nat) = 0) ∧
    (0 : Int) ≤ 1 ∧ (1 : Int) ≤ (Size (⟨[1, 2], 2⟩ : Vector Nat) : Int) ∧
    (constructedSlots
        (traceOf (Emplace false true failAt2 (⟨[1, 2], 2⟩ : Vector Nat) 1 9))).head? =
      some (1 : Int).toNat :=
  ⟨by decide, by decide, by decide,
    (emplace_realloc_strong failAt2 ⟨[1, 2], 2⟩ 1 9 (by decide) (by decide)
      (by decide)).1⟩

end VecModel
